import Mathlib

/-!
Verification of the Jobly SQL helper layer (`helpers/sql.js`) and the job
repository (`models/jobModel.js`).

The JavaScript source is shallowly embedded: JavaScript runtime values that
flow through the helpers are modelled by `JSVal` (numbers as exact rationals,
which is adequate for the decimal strings this codebase coerces), objects
used as ordered field maps by association lists in insertion order (the
iteration order of `Object.keys` for the non-numeric keys this codebase
uses), and thrown errors by an `Except` result.  `db.query` and
`Company.get` are external collaborators of `Job.findAll`; they are passed
to the embedding as function arguments, so every theorem about `Job.findAll`
holds for an arbitrary store.
-/

namespace Jobly

/-- A JavaScript runtime value as used by the helper functions: strings from
the query string or request body, numbers (modelled as exact rationals;
`NaN` is its own constructor), booleans, `null` and `undefined`. -/
inductive JSVal where
  | str (s : String)
  | num (q : Rat)
  | bool (b : Bool)
  | null
  | undef
  | nan
deriving DecidableEq

/-- JavaScript truthiness: non-empty strings, non-zero numbers and `true`
are truthy; `null`, `undefined`, `NaN`, `0`, `""` and `false` are falsy. -/
def jsTruthy : JSVal → Bool
  | .str s => s ≠ ""
  | .num q => q ≠ 0
  | .bool b => b
  | .null => false
  | .undef => false
  | .nan => false

/-- The whitespace characters `String.prototype.trim` strips (the ASCII ones;
this codebase only trims spaces). -/
def isWsChar (c : Char) : Bool :=
  c == ' ' || c == '\t' || c == '\n' || c == '\r' || c == '\x0b' || c == '\x0c'

/-- `String.prototype.trim`: strip leading and trailing whitespace. -/
def jsTrim (s : String) : String :=
  String.mk (((s.data.dropWhile isWsChar).reverse.dropWhile isWsChar).reverse)

/-- The numeric value of a digit list, when every character is a digit. -/
def digitsToNat (cs : List Char) : Option Nat :=
  if cs.all Char.isDigit then
    some (cs.foldl (fun a c => a * 10 + (c.toNat - 48)) 0)
  else none

/-- Parse an unsigned decimal literal (`"20"`, `"0.02"`, `"5."`, `".5"`) to a
rational, `none` when the characters do not form such a literal.  Models the
decimal forms accepted by JavaScript number coercion; the exponent and hex
forms are never produced by this codebase. -/
def parseUnsigned (cs : List Char) : Option Rat :=
  let intPart := cs.takeWhile (fun c => c ≠ '.')
  let rest := cs.dropWhile (fun c => c ≠ '.')
  match rest with
  | [] =>
    match digitsToNat intPart with
    | some n => if intPart = [] then none else some (mkRat n 1)
    | none => none
  | _ :: fracPart =>
    match digitsToNat intPart, digitsToNat fracPart with
    | some n, some f =>
      if intPart = [] ∧ fracPart = [] then none
      else some (mkRat (n * 10 ^ fracPart.length + f) (10 ^ fracPart.length))
    | _, _ => none

/-- JavaScript string-to-number coercion (`+s` / `Number(s)`): trim, empty
means `0`, an optional sign then a decimal literal; anything else is `NaN`
(`none`). -/
def parseNumber (s : String) : Option Rat :=
  match (jsTrim s).data with
  | [] => some 0
  | '-' :: rest => (parseUnsigned rest).map (fun q => -q)
  | '+' :: rest => parseUnsigned rest
  | cs => parseUnsigned cs

/-- The number a JavaScript value coerces to under unary `+`, `none` for
`NaN`. -/
def jsToNum : JSVal → Option Rat
  | .num q => some q
  | .str s => parseNumber s
  | .bool b => some (if b then 1 else 0)
  | .null => some 0
  | .undef => none
  | .nan => none

/-- JavaScript unary plus as a value-level operation. -/
def jsPlus (v : JSVal) : JSVal :=
  match jsToNum v with
  | some q => .num q
  | none => .nan

/-- The string a value becomes inside a template literal.  Number formatting
is modelled for integers only; the builders only ever interpolate the raw
query-string values, which are strings. -/
def jsToString : JSVal → String
  | .str s => s
  | .num q => if q.den = 1 then toString q.num else toString q
  | .bool b => if b then "true" else "false"
  | .null => "null"
  | .undef => "undefined"
  | .nan => "NaN"

/-- A thrown JavaScript error: `BadRequestError`, `NotFoundError`, or a
runtime `TypeError`. -/
inductive JsErr where
  | badRequest (msg : String)
  | notFound (msg : String)
  | typeError (msg : String)
deriving DecidableEq

/-- Decidable equality for `Except` results, so concrete runs of the
builders can be checked by `decide`. -/
instance exceptDecEq {ε α : Type} [DecidableEq ε] [DecidableEq α] :
    DecidableEq (Except ε α) := fun a b =>
  match a, b with
  | .error e, .error f =>
    if h : e = f then isTrue (by rw [h]) else isFalse (fun hh => h (Except.error.inj hh))
  | .ok x, .ok y =>
    if h : x = y then isTrue (by rw [h]) else isFalse (fun hh => h (Except.ok.inj hh))
  | .error _, .ok _ => isFalse (fun hh => Except.noConfusion hh)
  | .ok _, .error _ => isFalse (fun hh => Except.noConfusion hh)

/-- First-occurrence lookup in an association-list object
(`dataForFilter[k]`; JavaScript objects cannot hold a key twice). -/
def lookupKey (data : List (String × JSVal)) (k : String) : Option JSVal :=
  (data.find? (fun p => p.1 == k)).map Prod.snd

/-- `obj[k] = v`: overwrite the key in place when present, append it
otherwise. -/
def setKey (data : List (String × JSVal)) (k : String) (v : JSVal) :
    List (String × JSVal) :=
  if (data.find? (fun p => p.1 == k)).isSome then
    data.map (fun p => if p.1 == k then (k, v) else p)
  else data ++ [(k, v)]

/-- The two table configurations `sqlForFilter` knows. -/
inductive Table where
  | companies
  | jobs
deriving DecidableEq

/-- The table name as interpolated into error messages. -/
def tableName : Table → String
  | .companies => "companies"
  | .jobs => "jobs"

/-- One entry of the `fields` configuration object inside `sqlForFilter`:
the column name, the `type` tag (`none` for the `hasEquity` entry, which has
no `type` key), and the comparison operator when present. -/
structure FieldSpec where
  dbName : String
  ftype : Option String
  comparison : Option String
deriving DecidableEq

/-- The `fields` table of `sqlForFilter`, transcribed from the source
(property lookup `fields[table][colName]`). -/
def fieldsFor (t : Table) (k : String) : Option FieldSpec :=
  match t with
  | .companies =>
    if k = "nameLike" then some ⟨"name", some "string", none⟩
    else if k = "minEmployees" then some ⟨"num_employees", some "integer", some ">="⟩
    else if k = "maxEmployees" then some ⟨"num_employees", some "integer", some "<="⟩
    else none
  | .jobs =>
    if k = "title" then some ⟨"title", some "string", none⟩
    else if k = "minSalary" then some ⟨"salary", some "integer", some ">="⟩
    else if k = "hasEquity" then some ⟨"equity", none, none⟩
    else none

/-- The result object of `sqlForFilter`. -/
structure FilterResult where
  whereClause : String
  values : List JSVal
deriving DecidableEq

/-- One iteration of the `keys.map` callback inside `sqlForFilter`: `n` is
`valuesOut.length` before this key.  Returns the clause fragment and the
values pushed (none for `hasEquity`, one otherwise).  An unrecognized key
throws; calling `.trim()` on a non-string throws a `TypeError`. -/
def fragOf (t : Table) (k : String) (v : JSVal) (n : Nat) :
    Except JsErr (String × List JSVal) :=
  match fieldsFor t k with
  | none =>
    .error (.badRequest ("Filtering '" ++ tableName t ++ "' by '" ++ k ++ "' is not possible."))
  | some spec =>
    if k = "hasEquity" then
      if jsTruthy v then .ok (spec.dbName ++ " > 0", [])
      else .ok (spec.dbName ++ " >= 0", [])
    else if spec.ftype = some "string" then
      match v with
      | .str s =>
        .ok (spec.dbName ++ " ILIKE " ++ "$" ++ toString (n + 1),
             [.str ("%" ++ jsTrim s ++ "%")])
      | _ => .error (.typeError ("dataForFilter." ++ k ++ ".trim is not a function"))
    else if spec.ftype = some "integer" then
      .ok (spec.dbName ++ " " ++ spec.comparison.getD "undefined" ++ " " ++ "$" ++ toString (n + 1),
           [jsPlus v])
    else
      .error (.badRequest ("Filtering '" ++ tableName t ++ "' by '" ++ k ++ "' is not possible."))

/-- The `keys.map` loop of `sqlForFilter` with its mutable `valuesOut`
accumulator made explicit: processes the keys left to right, threading the
count of values pushed so far; a thrown error aborts the loop. -/
def buildCols (t : Table) : List (String × JSVal) → Nat →
    Except JsErr (List String × List JSVal)
  | [], _ => .ok ([], [])
  | (k, v) :: rest, n =>
    match fragOf t k v n with
    | .error e => .error e
    | .ok (frag, pushed) =>
      match buildCols t rest (n + pushed.length) with
      | .error e => .error e
      | .ok (frags, vals) => .ok (frag :: frags, pushed ++ vals)

/-- The cross-field check at the top of `sqlForFilter`: both keys present
and `+max <= +min` (false when either coercion is `NaN`, as NaN comparisons
are false in JavaScript). -/
def minMaxFires (data : List (String × JSVal)) : Bool :=
  match lookupKey data "minEmployees", lookupKey data "maxEmployees" with
  | some vmin, some vmax =>
    match jsToNum vmax, jsToNum vmin with
    | some b, some a => b ≤ a
    | _, _ => false
  | _, _ => false

/-- The message of the cross-field error, with the raw values interpolated. -/
def minMaxMsg (data : List (String × JSVal)) : String :=
  "Filter is incorrect: 'minEmployees', " ++
    jsToString ((lookupKey data "minEmployees").getD .undef) ++
    ", is NOT less than 'maxEmployees', " ++
    jsToString ((lookupKey data "maxEmployees").getD .undef) ++ "."

/-- `sqlForFilter(dataForFilter, table)` from `helpers/sql.js`.  `none`
models a `null`/`undefined` mapping (the only falsy arguments callers pass). -/
def sqlForFilter (dataForFilter : Option (List (String × JSVal))) (t : Table) :
    Except JsErr FilterResult :=
  match dataForFilter with
  | none => .ok ⟨"", []⟩
  | some data =>
    if data.isEmpty then .ok ⟨"", []⟩
    else if minMaxFires data then .error (.badRequest (minMaxMsg data))
    else
      match buildCols t data 0 with
      | .error e => .error e
      | .ok (frags, vals) => .ok ⟨"WHERE " ++ String.intercalate " AND " frags, vals⟩

/-- The column name used for an update key: `jsToSql[colName] || colName`
(the mapping value when present and truthy, the key itself otherwise). -/
def mappedCol (jsToSql : List (String × String)) (colName : String) : String :=
  match (jsToSql.find? (fun p => p.1 == colName)).map Prod.snd with
  | some c => if c = "" then colName else c
  | none => colName

/-- The `keys.map((colName, idx) => ...)` loop of `sqlForPartialUpdate`:
`i` is the number of keys already processed (`idx`). -/
def setColsList (jsToSql : List (String × String)) :
    List (String × JSVal) → Nat → List String
  | [], _ => []
  | (k, _) :: rest, i =>
    ("\"" ++ mappedCol jsToSql k ++ "\"=" ++ "$" ++ toString (i + 1)) ::
      setColsList jsToSql rest (i + 1)

/-- The result object of `sqlForPartialUpdate`. -/
structure UpdateResult where
  setCols : String
  values : List JSVal
deriving DecidableEq

/-- `sqlForPartialUpdate(dataToUpdate, jsToSql)` from `helpers/sql.js`. -/
def sqlForPartialUpdate (dataToUpdate : List (String × JSVal))
    (jsToSql : List (String × String)) : Except JsErr UpdateResult :=
  if dataToUpdate.isEmpty then .error (.badRequest "No data")
  else
    .ok ⟨String.intercalate ", " (setColsList jsToSql dataToUpdate 0),
         dataToUpdate.map Prod.snd⟩

/-- The text of the grouped company/jobs query `Job.findAll` sends to the
store, with the join type and built where-clause spliced in. -/
def jobFindAllQuery (joinType whereClause : String) : String :=
  "SELECT c.handle, c.name, c.num_employees AS numEmployees, c.description, " ++
    "c.logo_url AS logoUrl, json_agg(j.*) AS jobs FROM companies AS c " ++
    joinType ++ "JOIN jobs AS j ON c.handle = j.company_handle " ++ whereClause ++
    " GROUP BY c.handle, c.name, c.num_employees, c.description, c.logo_url ORDER BY c.handle"

/-- A successful return of `Job.findAll`: either the (reshaped) rows of a
non-empty query result, or — for a single-company lookup whose filtering
removed every job — the record `Company.get` returned, with its job list
emptied. -/
inductive FindAllOk (α β : Type) where
  | rows (rs : List α)
  | companyEmptyJobs (c : β)

/-- `Job.findAll(handle, joinType, filterValues)` from `models/jobModel.js`,
lines 59-142.  The two store round-trips are external collaborators and are
passed in: `dbAnswer` answers the grouped query (given the query text and
the positional values) with its row list, and `companyGet` is
`Company.get`.  The reshaping of a non-empty row list (deleting
`company_handle` and, on global listings, `description`/`logoUrl`) does not
affect which outcome is taken and is left abstract in the row type `α`. -/
def jobFindAll {α β : Type} (handle joinType : String)
    (filterValues : List (String × JSVal))
    (dbAnswer : String → List JSVal → List α)
    (companyGet : String → Except JsErr β) : Except JsErr (FindAllOk α β) :=
  let filtersInAffect := !filterValues.isEmpty
  let fv := if handle ≠ "" then setKey filterValues "handle" (.str handle) else filterValues
  match sqlForFilter (some fv) .jobs with
  | .error e => .error e
  | .ok filter =>
    let rows := dbAnswer (jobFindAllQuery joinType filter.whereClause) filter.values
    if rows.length = 0 then
      if filtersInAffect then
        if handle ≠ "" then
          match companyGet handle with
          | .ok c => .ok (.companyEmptyJobs c)
          | .error e => .error e
        else .error (.notFound "No jobs were found due to filter settings")
      else .error (.notFound ("No company: " ++ handle))
    else .ok (.rows rows)

/-- The ternary `x ? +x : x` used when shaping job rows: coerce a truthy
value to a number, pass a falsy one (`null`, `""`, `0`) through unchanged. -/
def jsTernaryNum (v : JSVal) : JSVal :=
  if jsTruthy v then jsPlus v else v

/-- A row of the `jobs` table as the store returns it to `Job.create` and
`Job.update` (`RETURNING id, company_handle, title, salary, equity`; the
exact-decimal `equity` column arrives as a string, or `null`). -/
structure PgJobRow where
  id : JSVal
  company_handle : JSVal
  title : JSVal
  salary : JSVal
  equity : JSVal
deriving DecidableEq

/-- The object `Job.create` returns (jobModel.js lines 43-49): renamed
`companyHandle`, with the `salary` and `equity` ternaries applied. -/
structure JobCreateOut where
  id : JSVal
  companyHandle : JSVal
  title : JSVal
  salary : JSVal
  equity : JSVal
deriving DecidableEq

/-- The row-shaping step of `Job.create`. -/
def jobCreateReturn (job : PgJobRow) : JobCreateOut :=
  ⟨job.id, job.company_handle, job.title, jsTernaryNum job.salary, jsTernaryNum job.equity⟩

/-- The object `Job.update` returns (jobModel.js lines 224-230): only the
`equity` ternary is applied. -/
structure JobUpdateOut where
  companyHandle : JSVal
  id : JSVal
  title : JSVal
  salary : JSVal
  equity : JSVal
deriving DecidableEq

/-- The row-shaping step of `Job.update`. -/
def jobUpdateReturn (job : PgJobRow) : JobUpdateOut :=
  ⟨job.company_handle, job.id, job.title, job.salary, jsTernaryNum job.equity⟩

/-- The joined row `Job.get` selects (job columns plus the owning company
summary). -/
structure PgJobDetailRow where
  handle : JSVal
  name : JSVal
  numEmployees : JSVal
  id : JSVal
  title : JSVal
  salary : JSVal
  equity : JSVal
deriving DecidableEq

/-- The nested job object inside `Job.get`'s return value. -/
structure JobInner where
  id : JSVal
  title : JSVal
  salary : JSVal
  equity : JSVal
deriving DecidableEq

/-- The object `Job.get` returns (jobModel.js lines 172-182). -/
structure JobDetailOut where
  handle : JSVal
  name : JSVal
  numEmployees : JSVal
  job : JobInner
deriving DecidableEq

/-- The row-shaping step of `Job.get` (after the not-found check). -/
def jobGetReturn (jobDetail : PgJobDetailRow) : JobDetailOut :=
  ⟨jobDetail.handle, jobDetail.name, jobDetail.numEmployees,
   ⟨jobDetail.id, jobDetail.title, jobDetail.salary, jsTernaryNum jobDetail.equity⟩⟩

/-- The number of positional parameters one filter key contributes
(`hasEquity` pushes no value, every other recognized key pushes one). -/
def paramCount (k : String) : Nat :=
  if k = "hasEquity" then 0 else 1

/-- The number of positional parameters a filter mapping contributes. -/
def countParams (data : List (String × JSVal)) : Nat :=
  (data.filter (fun p => p.1 != "hasEquity")).length

/-- The string holds no `$` placeholder marker. -/
def noDollar (s : String) : Bool :=
  !(s.data.contains '$')

/-- The six field configurations occurring in the `fields` table. -/
def specList : List FieldSpec :=
  [⟨"name", some "string", none⟩,
   ⟨"num_employees", some "integer", some ">="⟩,
   ⟨"num_employees", some "integer", some "<="⟩,
   ⟨"title", some "string", none⟩,
   ⟨"salary", some "integer", some ">="⟩,
   ⟨"equity", none, none⟩]

/-- A concrete jobs filter mapping with `hasEquity` between two
parameterized fields, used as a witness input. -/
def exampleJobsFilter : List (String × JSVal) :=
  [("title", .str "x"), ("hasEquity", .str "true"), ("minSalary", .str "5")]

/-- What `sqlForFilter` returns on `exampleJobsFilter`. -/
def exampleJobsResult : FilterResult :=
  ⟨"WHERE title ILIKE $1 AND equity > 0 AND salary >= $2", [.str "%x%", .num 5]⟩

/-- A stored job row whose equity is the decimal string `"0.02"`. -/
def exampleJobRow : PgJobRow :=
  ⟨.num 7, .str "c1", .str "job", .num 50000, .str "0.02"⟩

/-- A stored job row with a null equity. -/
def exampleJobRowNull : PgJobRow :=
  ⟨.num 8, .str "c1", .str "job", .null, .null⟩

/-- A joined job-detail row whose equity is the decimal string `"0.02"`. -/
def exampleJobDetailRow : PgJobDetailRow :=
  ⟨.str "c1", .str "C1", .num 1, .num 7, .str "job", .num 50000, .str "0.02"⟩

set_option maxRecDepth 8000

theorem countParams_nil : countParams [] = 0 := rfl

theorem countParams_cons (k : String) (v : JSVal) (rest : List (String × JSVal)) :
    countParams ((k, v) :: rest) = paramCount k + countParams rest := by
  by_cases h : k = "hasEquity"
  · simp [countParams, paramCount, List.filter_cons, h]
  · simp [countParams, paramCount, List.filter_cons, h]
    omega

theorem fieldsFor_mem_specList (t : Table) (k : String) (spec : FieldSpec)
    (h : fieldsFor t k = some spec) : spec ∈ specList := by
  cases t <;> (simp only [fieldsFor] at h; split_ifs at h <;> simp_all [specList])

theorem specs_noDollar :
    ∀ spec ∈ specList, noDollar (spec.dbName ++ " ILIKE ") = true ∧
      noDollar (spec.dbName ++ " " ++ spec.comparison.getD "undefined" ++ " ") = true := by
  decide

/-- Success cases of one `keys.map` iteration: the `hasEquity` key yields a
literal fragment and pushes nothing; every other recognized key yields a
fragment ending in the placeholder `$(n+1)` and pushes exactly one value. -/
theorem fragOf_ok_cases (t : Table) (k : String) (v : JSVal) (n : Nat)
    (frag : String) (pushed : List JSVal)
    (h : fragOf t k v n = .ok (frag, pushed)) :
    (k = "hasEquity" ∧ pushed = [] ∧
      frag = (if jsTruthy v then "equity > 0" else "equity >= 0")) ∨
    (k ≠ "hasEquity" ∧ ∃ stem w, frag = stem ++ "$" ++ toString (n + 1) ∧
      pushed = [w] ∧ noDollar stem = true) := by
  unfold fragOf at h
  split at h
  case h_1 => exact Except.noConfusion h
  case h_2 spec hf =>
    by_cases hk : k = "hasEquity"
    · left
      rw [if_pos hk] at h
      have hspec : spec = ⟨"equity", none, none⟩ := by
        subst hk
        cases t
        · have h0 : fieldsFor Table.companies "hasEquity" = none := rfl
          rw [h0] at hf; cases hf
        · have h1 : fieldsFor Table.jobs "hasEquity" =
              some ⟨"equity", none, none⟩ := rfl
          rw [h1] at hf
          exact (Option.some.inj hf).symm
      subst hspec
      cases ht : jsTruthy v
      · rw [if_neg (by simp [ht])] at h
        refine ⟨hk, ?_, ?_⟩
        · exact (Prod.mk.inj (Except.ok.inj h)).2.symm
        · rw [if_neg (by simp [ht])]
          rw [← (Prod.mk.inj (Except.ok.inj h)).1]
          decide
      · rw [if_pos (by simp [ht])] at h
        refine ⟨hk, ?_, ?_⟩
        · exact (Prod.mk.inj (Except.ok.inj h)).2.symm
        · rw [if_pos (by simp [ht])]
          rw [← (Prod.mk.inj (Except.ok.inj h)).1]
          decide
    · right
      rw [if_neg hk] at h
      refine ⟨hk, ?_⟩
      by_cases hs : spec.ftype = some "string"
      · rw [if_pos hs] at h
        cases v with
        | str s =>
          refine ⟨spec.dbName ++ " ILIKE ", .str ("%" ++ jsTrim s ++ "%"), ?_, ?_, ?_⟩
          · exact ((Prod.mk.inj (Except.ok.inj h)).1).symm
          · exact ((Prod.mk.inj (Except.ok.inj h)).2).symm
          · exact (specs_noDollar spec (fieldsFor_mem_specList t k spec hf)).1
        | num q => exact Except.noConfusion h
        | bool b => exact Except.noConfusion h
        | null => exact Except.noConfusion h
        | undef => exact Except.noConfusion h
        | nan => exact Except.noConfusion h
      · by_cases hi : spec.ftype = some "integer"
        · rw [if_neg hs, if_pos hi] at h
          refine ⟨spec.dbName ++ " " ++ spec.comparison.getD "undefined" ++ " ",
                  jsPlus v, ?_, ?_, ?_⟩
          · exact ((Prod.mk.inj (Except.ok.inj h)).1).symm
          · exact ((Prod.mk.inj (Except.ok.inj h)).2).symm
          · exact (specs_noDollar spec (fieldsFor_mem_specList t k spec hf)).2
        · rw [if_neg hs, if_neg hi] at h
          exact Except.noConfusion h

/-- Structure of a successful run of the `keys.map` loop, starting from `n`
values already pushed: one fragment per key in order; the `hasEquity` key
contributes its literal fragment and no value; every other key's fragment
carries the single placeholder numbered `n + (parameters pushed by the keys
before it) + 1`, and its value sits at the matching position of the pushed
value list. -/
theorem buildCols_ok_spec (t : Table) :
    ∀ (data : List (String × JSVal)) (n : Nat) (frags : List String) (vals : List JSVal),
      buildCols t data n = .ok (frags, vals) →
      frags.length = data.length ∧
      vals.length = countParams data ∧
      (∀ (j : Nat) (k : String) (v : JSVal), data.get? j = some (k, v) →
        (k = "hasEquity" →
          frags.get? j = some (if jsTruthy v then "equity > 0" else "equity >= 0")) ∧
        (k ≠ "hasEquity" →
          ∃ stem w,
            frags.get? j =
              some (stem ++ "$" ++ toString (n + countParams (data.take j) + 1)) ∧
            noDollar stem = true ∧
            vals.get? (countParams (data.take j)) = some w)) := by
  intro data
  induction data with
  | nil =>
    intro n frags vals h
    have h0 : buildCols t [] n = .ok ([], []) := rfl
    rw [h0] at h
    obtain ⟨h1, h2⟩ := Prod.mk.inj (Except.ok.inj h)
    refine ⟨by cases h1; rfl, by cases h2; rfl, ?_⟩
    intro j k v hget
    cases j <;> exact Option.noConfusion hget
  | cons p rest ih =>
    obtain ⟨k₀, v₀⟩ := p
    intro n frags vals h
    rw [show buildCols t ((k₀, v₀) :: rest) n =
        (match fragOf t k₀ v₀ n with
         | .error e => .error e
         | .ok (frag, pushed) =>
           match buildCols t rest (n + pushed.length) with
           | .error e => .error e
           | .ok (frags, vals) => .ok (frag :: frags, pushed ++ vals)) from rfl] at h
    split at h
    case h_1 => exact Except.noConfusion h
    case h_2 frag pushed hfr =>
      split at h
      case h_1 => exact Except.noConfusion h
      case h_2 frags' vals' hbc =>
        obtain ⟨h1, h2⟩ := Prod.mk.inj (Except.ok.inj h)
        obtain ⟨ihlen, ihcnt, ihspec⟩ := ih (n + pushed.length) frags' vals' hbc
        have hplen : pushed.length = paramCount k₀ := by
          rcases fragOf_ok_cases t k₀ v₀ n frag pushed hfr with
            ⟨hk₀, hp, _⟩ | ⟨hk₀, stem, w, _, hp, _⟩
          · rw [hp]; simp [paramCount, hk₀]
          · rw [hp]; simp [paramCount, hk₀]
        refine ⟨?_, ?_, ?_⟩
        · rw [← h1]; simp [ihlen]
        · rw [← h2, countParams_cons]
          simp [ihcnt, hplen]
        · intro j k v hget
          cases j with
          | zero =>
            obtain ⟨hkk, hvv⟩ :=
              Prod.mk.inj (Option.some.inj (hget : some (k₀, v₀) = some (k, v)))
            subst hkk; subst hvv
            rcases fragOf_ok_cases t k₀ v₀ n frag pushed hfr with
              ⟨hk₀, hp, hfrag⟩ | ⟨hk₀, stem, w, hfrag, hp, hnd⟩
            · constructor
              · intro _
                rw [← h1]
                simp [hfrag]
              · intro hne
                exact absurd hk₀ hne
            · constructor
              · intro hke
                exact absurd hke hk₀
              · intro _
                refine ⟨stem, w, ?_, hnd, ?_⟩
                · rw [← h1]
                  simp [hfrag, countParams]
                · rw [← h2, hp]
                  simp [countParams]
          | succ j' =>
            have hget' : rest.get? j' = some (k, v) := hget
            have hspec' := ihspec j' k v hget'
            have htake : ((k₀, v₀) :: rest).take (j' + 1) = (k₀, v₀) :: rest.take j' := rfl
            constructor
            · intro hke
              rw [← h1]
              exact (hspec'.1) hke
            · intro hkne
              obtain ⟨stem, w, hfg, hnd', hvg⟩ := hspec'.2 hkne
              have hidx : n + countParams (((k₀, v₀) :: rest).take (j' + 1)) + 1 =
                  n + pushed.length + countParams (rest.take j') + 1 := by
                rw [htake, countParams_cons, hplen]; omega
              refine ⟨stem, w, ?_, hnd', ?_⟩
              · rw [← h1, hidx]
                simpa using hfg
              · rw [← h2, htake, countParams_cons]
                rcases fragOf_ok_cases t k₀ v₀ n frag pushed hfr with
                  ⟨hk₀, hp, _⟩ | ⟨hk₀, stem₀, w₀, _, hp, _⟩
                · rw [hp]
                  simpa [paramCount, hk₀] using hvg
                · rw [hp]
                  have : paramCount k₀ + countParams (rest.take j') =
                      countParams (rest.take j') + 1 := by
                    simp [paramCount, hk₀]; omega
                  rw [this]
                  simpa using hvg

/-- When some key of the mapping is not a recognized field of the table, the
`keys.map` loop of `sqlForFilter` always throws (the error reported may
belong to an earlier key). -/
theorem buildCols_unrecognized (t : Table) (k : String) :
    ∀ (data : List (String × JSVal)) (n : Nat), k ∈ data.map Prod.fst →
      fieldsFor t k = none → ∃ e, buildCols t data n = .error e := by
  intro data
  induction data with
  | nil => intro n hmem _; simp at hmem
  | cons p rest ih =>
    obtain ⟨k₀, v₀⟩ := p
    intro n hmem hf
    rw [List.map_cons] at hmem
    rcases List.mem_cons.mp hmem with heq | hmem'
    · subst heq
      refine ⟨JsErr.badRequest ("Filtering '" ++ tableName t ++ "' by '" ++ k ++ "' is not possible."), ?_⟩
      have hfr : fragOf t k v₀ n =
          Except.error (JsErr.badRequest ("Filtering '" ++ tableName t ++ "' by '" ++ k ++ "' is not possible.")) := by
        unfold fragOf; rw [hf]
      have hred : buildCols t ((k, v₀) :: rest) n =
          (match fragOf t k v₀ n with
           | Except.error e => Except.error e
           | Except.ok (frag, pushed) =>
             match buildCols t rest (n + pushed.length) with
             | Except.error e => Except.error e
             | Except.ok (frags, vals) => Except.ok (frag :: frags, pushed ++ vals)) := rfl
      rw [hred, hfr]
    · cases hfr : fragOf t k₀ v₀ n with
      | error e =>
        refine ⟨e, ?_⟩
        have hred : buildCols t ((k₀, v₀) :: rest) n =
            (match fragOf t k₀ v₀ n with
             | Except.error e => Except.error e
             | Except.ok (frag, pushed) =>
               match buildCols t rest (n + pushed.length) with
               | Except.error e => Except.error e
               | Except.ok (frags, vals) => Except.ok (frag :: frags, pushed ++ vals)) := rfl
        rw [hred, hfr]
      | ok fp =>
        obtain ⟨frag, pushed⟩ := fp
        obtain ⟨e, he⟩ := ih (n + pushed.length) hmem' hf
        refine ⟨e, ?_⟩
        have hred : buildCols t ((k₀, v₀) :: rest) n =
            (match buildCols t rest (n + pushed.length) with
             | Except.error e => Except.error e
             | Except.ok (frags, vals) => Except.ok (frag :: frags, pushed ++ vals)) := by
          have hstep : buildCols t ((k₀, v₀) :: rest) n =
              (match fragOf t k₀ v₀ n with
               | Except.error e => Except.error e
               | Except.ok (frag, pushed) =>
                 match buildCols t rest (n + pushed.length) with
                 | Except.error e => Except.error e
                 | Except.ok (frags, vals) => Except.ok (frag :: frags, pushed ++ vals)) := rfl
          rw [hstep, hfr]
        rw [hred, he]

/-- A successful `sqlForFilter` run on a non-empty mapping decomposes into a
successful loop run, a `WHERE `-prefixed ` AND `-join of its fragments, and
its pushed values. -/
theorem sqlForFilter_ok_parts (data : List (String × JSVal)) (t : Table)
    (r : FilterResult) (hne : data ≠ [])
    (h : sqlForFilter (some data) t = .ok r) :
    minMaxFires data = false ∧
      ∃ frags vals, buildCols t data 0 = .ok (frags, vals) ∧
        r = ⟨"WHERE " ++ String.intercalate " AND " frags, vals⟩ := by
  have hE : data.isEmpty = false := by
    cases data with
    | nil => exact absurd rfl hne
    | cons a l => rfl
  have h' : (if data.isEmpty then Except.ok (⟨"", []⟩ : FilterResult)
      else if minMaxFires data then Except.error (JsErr.badRequest (minMaxMsg data))
      else match buildCols t data 0 with
        | Except.error e => Except.error e
        | Except.ok (frags, vals) =>
          Except.ok (⟨"WHERE " ++ String.intercalate " AND " frags, vals⟩ : FilterResult)) =
      Except.ok r := h
  clear h
  rw [hE] at h'
  simp only [Bool.false_eq_true, if_false] at h'
  cases hmm : minMaxFires data with
  | true => rw [hmm] at h'; simp only [if_true] at h'; exact Except.noConfusion h'
  | false =>
    rw [hmm] at h'
    simp only [Bool.false_eq_true, if_false] at h'
    refine ⟨rfl, ?_⟩
    cases hbc : buildCols t data 0 with
    | error e => rw [hbc] at h'; exact Except.noConfusion h'
    | ok fv =>
      obtain ⟨frags, vals⟩ := fv
      rw [hbc] at h'
      exact ⟨frags, vals, rfl, (Except.ok.inj h').symm⟩

/-- C6: `sqlForFilter` on an empty, null or undefined mapping returns the
empty where-clause (no leading `WHERE`) and an empty value list without
raising, and this success is distinct from any error result. -/
theorem sqlForFilter_empty_input (t : Table) :
    sqlForFilter none t = .ok ⟨"", []⟩ ∧
    sqlForFilter (some []) t = .ok ⟨"", []⟩ ∧
    ∀ e : JsErr, (Except.ok (⟨"", []⟩ : FilterResult) : Except JsErr FilterResult) ≠ .error e :=
  ⟨rfl, rfl, fun _ h => Except.noConfusion h⟩

/-- C7: `sqlForPartialUpdate` on an empty update mapping fails with the
`"No data"` validation error, whatever the `jsToSql` column mapping holds,
producing no clause or values. -/
theorem sqlForPartialUpdate_no_data (jsToSql : List (String × String)) :
    sqlForPartialUpdate [] jsToSql = .error (.badRequest "No data") := rfl

/-- C8: on the companies mapping `{nameLike: "net ", minEmployees: "5",
maxEmployees: "50"}`, `sqlForFilter` returns exactly the claimed clause and
the values `["%net%", 5, 50]`: the string value is trimmed and wrapped in
`%...%`, and the employee bounds are coerced from strings to integers. -/
theorem sqlForFilter_companies_example :
    sqlForFilter (some [("nameLike", .str "net "), ("minEmployees", .str "5"),
        ("maxEmployees", .str "50")]) .companies =
      .ok ⟨"WHERE name ILIKE $1 AND num_employees >= $2 AND num_employees <= $3",
           [.str "%net%", .num 5, .num 50]⟩ := by
  decide

/-- C3: when a filter mapping holds both `minEmployees` and `maxEmployees`
and the coerced numeric value of the maximum is less than or equal to that
of the minimum, `sqlForFilter` fails with the cross-field validation error
before building any clause or parameter (for either table, and regardless
of the remaining keys). -/
theorem sqlForFilter_minMax_rejected (data : List (String × JSVal)) (t : Table)
    (vmin vmax : JSVal) (a b : Rat)
    (hmin : lookupKey data "minEmployees" = some vmin)
    (hmax : lookupKey data "maxEmployees" = some vmax)
    (ha : jsToNum vmin = some a) (hb : jsToNum vmax = some b) (hle : b ≤ a) :
    sqlForFilter (some data) t =
      .error (.badRequest ("Filter is incorrect: 'minEmployees', " ++ jsToString vmin ++
        ", is NOT less than 'maxEmployees', " ++ jsToString vmax ++ ".")) := by
  have hne : data ≠ [] := by
    rintro rfl
    simp [lookupKey] at hmin
  have hE : data.isEmpty = false := by
    cases data with
    | nil => exact absurd rfl hne
    | cons p l => rfl
  have hfire : minMaxFires data = true := by
    unfold minMaxFires
    simp only [hmin, hmax, ha, hb]
    exact decide_eq_true hle
  have hmsg : minMaxMsg data =
      "Filter is incorrect: 'minEmployees', " ++ jsToString vmin ++
        ", is NOT less than 'maxEmployees', " ++ jsToString vmax ++ "." := by
    unfold minMaxMsg
    rw [hmin, hmax]
    rfl
  show (if data.isEmpty then Except.ok (⟨"", []⟩ : FilterResult)
      else if minMaxFires data then Except.error (JsErr.badRequest (minMaxMsg data))
      else match buildCols t data 0 with
        | Except.error e => Except.error e
        | Except.ok (frags, vals) =>
          Except.ok (⟨"WHERE " ++ String.intercalate " AND " frags, vals⟩ : FilterResult)) = _
  rw [hE, hfire, hmsg]
  simp

/-- Witness for C3: the rejection fires both for a strict inversion
(max 10 < min 20) and for equality (max 20 = min 20). -/
theorem sqlForFilter_minMax_rejected_witness :
    sqlForFilter (some [("nameLike", .str "txt"), ("minEmployees", .str "20"),
        ("maxEmployees", .str "10")]) .companies =
      .error (.badRequest ("Filter is incorrect: 'minEmployees', " ++
        jsToString (.str "20") ++ ", is NOT less than 'maxEmployees', " ++
        jsToString (.str "10") ++ ".")) ∧
    sqlForFilter (some [("minEmployees", .str "20"), ("maxEmployees", .str "20")]) .jobs =
      .error (.badRequest ("Filter is incorrect: 'minEmployees', " ++
        jsToString (.str "20") ++ ", is NOT less than 'maxEmployees', " ++
        jsToString (.str "20") ++ ".")) :=
  ⟨sqlForFilter_minMax_rejected
      [("nameLike", .str "txt"), ("minEmployees", .str "20"), ("maxEmployees", .str "10")]
      .companies (.str "20") (.str "10") 20 10
      (by decide) (by decide) (by decide) (by decide) (by decide),
   sqlForFilter_minMax_rejected
      [("minEmployees", .str "20"), ("maxEmployees", .str "20")]
      .jobs (.str "20") (.str "20") 20 20
      (by decide) (by decide) (by decide) (by decide) (by decide)⟩

theorem setColsList_length (m : List (String × String)) :
    ∀ (d : List (String × JSVal)) (i : Nat), (setColsList m d i).length = d.length := by
  intro d
  induction d with
  | nil => intro i; rfl
  | cons p rest ih =>
    obtain ⟨k, v⟩ := p
    intro i
    simp [setColsList, ih]

theorem setColsList_get (m : List (String × String)) :
    ∀ (d : List (String × JSVal)) (i j : Nat) (k : String) (v : JSVal),
      d.get? j = some (k, v) →
      (setColsList m d i).get? j =
        some ("\"" ++ mappedCol m k ++ "\"=" ++ "$" ++ toString (i + j + 1)) := by
  intro d
  induction d with
  | nil => intro i j k v hget; cases j <;> exact Option.noConfusion hget
  | cons p rest ih =>
    obtain ⟨k₀, v₀⟩ := p
    intro i j k v hget
    cases j with
    | zero =>
      obtain ⟨hkk, hvv⟩ :=
        Prod.mk.inj (Option.some.inj (hget : some (k₀, v₀) = some (k, v)))
      subst hkk
      show some ("\"" ++ mappedCol m k₀ ++ "\"=" ++ "$" ++ toString (i + 1)) = _
      rw [Nat.add_zero]
    | succ j' =>
      have hget' : rest.get? j' = some (k, v) := hget
      have hih := ih (i + 1) j' k v hget'
      have harith : i + 1 + j' + 1 = i + (j' + 1) + 1 := by omega
      rw [harith] at hih
      exact hih

/-- C4: on a non-empty update mapping, `sqlForPartialUpdate` returns the
comma-join of one `"<column>"=$<n>` assignment per input key in iteration
order — the column being the `jsToSql` mapping when present and the key
itself otherwise — with 1-indexed contiguous parameter positions, as many
assignments as input keys, and the input values in matching order. -/
theorem sqlForPartialUpdate_shape (d : List (String × JSVal))
    (m : List (String × String)) (hne : d ≠ []) :
    ∃ cols : List String,
      sqlForPartialUpdate d m = .ok ⟨String.intercalate ", " cols, d.map Prod.snd⟩ ∧
      cols.length = d.length ∧
      (d.map Prod.snd).length = d.length ∧
      (∀ (j : Nat) (k : String) (v : JSVal), d.get? j = some (k, v) →
        cols.get? j = some ("\"" ++ mappedCol m k ++ "\"=" ++ "$" ++ toString (j + 1))) := by
  have hE : d.isEmpty = false := by
    cases d with
    | nil => exact absurd rfl hne
    | cons p l => rfl
  refine ⟨setColsList m d 0, ?_, setColsList_length m d 0, by simp, ?_⟩
  · unfold sqlForPartialUpdate
    rw [hE]
    simp
  · intro j k v hget
    have hg := setColsList_get m d 0 j k v hget
    simpa using hg

/-- Witness for C4: a two-field update with one mapped column. -/
theorem sqlForPartialUpdate_shape_witness :
    ∃ cols : List String,
      sqlForPartialUpdate [("firstName", JSVal.str "Aliya"), ("age", JSVal.num 32)]
          [("firstName", "first_name")] =
        .ok ⟨String.intercalate ", " cols,
             ([("firstName", JSVal.str "Aliya"), ("age", JSVal.num 32)] :
               List (String × JSVal)).map Prod.snd⟩ ∧
      cols.length = ([("firstName", JSVal.str "Aliya"), ("age", JSVal.num 32)] :
        List (String × JSVal)).length ∧
      (([("firstName", JSVal.str "Aliya"), ("age", JSVal.num 32)] :
        List (String × JSVal)).map Prod.snd).length =
        ([("firstName", JSVal.str "Aliya"), ("age", JSVal.num 32)] :
          List (String × JSVal)).length ∧
      (∀ (j : Nat) (k : String) (v : JSVal),
        ([("firstName", JSVal.str "Aliya"), ("age", JSVal.num 32)] :
          List (String × JSVal)).get? j = some (k, v) →
        cols.get? j = some ("\"" ++ mappedCol [("firstName", "first_name")] k ++
          "\"=" ++ "$" ++ toString (j + 1))) :=
  sqlForPartialUpdate_shape
    [("firstName", JSVal.str "Aliya"), ("age", JSVal.num 32)]
    [("firstName", "first_name")] (by decide)

/-- Counterexample for C5: a mapping holding the unrecognized field `bogus`
together with an inverted `minEmployees`/`maxEmployees` pair fails with the
cross-field message, which does not name `bogus` (or the entity in the
claimed format), so the claim as stated is false. -/
theorem sqlForFilter_unrecognized_preempted_counterexample :
    sqlForFilter (some [("minEmployees", .str "5"), ("maxEmployees", .str "3"),
        ("bogus", .str "x")]) .companies =
      .error (.badRequest
        "Filter is incorrect: 'minEmployees', 5, is NOT less than 'maxEmployees', 3.") ∧
    ¬ List.IsInfix "bogus".data
        "Filter is incorrect: 'minEmployees', 5, is NOT less than 'maxEmployees', 3.".data :=
  ⟨by decide, by decide⟩

/-- C5 (amended): a mapping holding a field outside the recognized set for
the entity always makes `sqlForFilter` fail with some error; when the
cross-field `minEmployees`/`maxEmployees` check does not fire and the
unrecognized field is the first key processed, the error names both the
offending field and the entity. -/
theorem sqlForFilter_unrecognized_field :
    (∀ (t : Table) (data : List (String × JSVal)) (k : String),
        k ∈ data.map Prod.fst → fieldsFor t k = none →
        ∃ e, sqlForFilter (some data) t = .error e) ∧
    (∀ (t : Table) (k : String) (v : JSVal) (rest : List (String × JSVal)),
        fieldsFor t k = none → minMaxFires ((k, v) :: rest) = false →
        sqlForFilter (some ((k, v) :: rest)) t =
          .error (.badRequest
            ("Filtering '" ++ tableName t ++ "' by '" ++ k ++ "' is not possible."))) := by
  constructor
  · intro t data k hmem hf
    have hne : data ≠ [] := by
      rintro rfl
      simp at hmem
    have hE : data.isEmpty = false := by
      cases data with
      | nil => exact absurd rfl hne
      | cons p l => rfl
    cases hmm : minMaxFires data with
    | true =>
      refine ⟨.badRequest (minMaxMsg data), ?_⟩
      show (if data.isEmpty then Except.ok (⟨"", []⟩ : FilterResult)
          else if minMaxFires data then Except.error (JsErr.badRequest (minMaxMsg data))
          else match buildCols t data 0 with
            | Except.error e => Except.error e
            | Except.ok (frags, vals) =>
              Except.ok (⟨"WHERE " ++ String.intercalate " AND " frags, vals⟩ : FilterResult)) = _
      rw [hE, hmm]
      simp
    | false =>
      obtain ⟨e, he⟩ := buildCols_unrecognized t k data 0 hmem hf
      refine ⟨e, ?_⟩
      show (if data.isEmpty then Except.ok (⟨"", []⟩ : FilterResult)
          else if minMaxFires data then Except.error (JsErr.badRequest (minMaxMsg data))
          else match buildCols t data 0 with
            | Except.error e => Except.error e
            | Except.ok (frags, vals) =>
              Except.ok (⟨"WHERE " ++ String.intercalate " AND " frags, vals⟩ : FilterResult)) = _
      rw [hE, hmm]
      simp only [Bool.false_eq_true, if_false]
      rw [he]
  · intro t k v rest hf hmm
    have hE : ((k, v) :: rest).isEmpty = false := rfl
    have hfr : fragOf t k v 0 =
        .error (.badRequest
          ("Filtering '" ++ tableName t ++ "' by '" ++ k ++ "' is not possible.")) := by
      unfold fragOf
      rw [hf]
    have hbc : buildCols t ((k, v) :: rest) 0 =
        .error (.badRequest
          ("Filtering '" ++ tableName t ++ "' by '" ++ k ++ "' is not possible.")) := by
      have hred : buildCols t ((k, v) :: rest) 0 =
          (match fragOf t k v 0 with
           | Except.error e => Except.error e
           | Except.ok (frag, pushed) =>
             match buildCols t rest (0 + pushed.length) with
             | Except.error e => Except.error e
             | Except.ok (frags, vals) => Except.ok (frag :: frags, pushed ++ vals)) := rfl
      rw [hred, hfr]
    show (if ((k, v) :: rest).isEmpty then Except.ok (⟨"", []⟩ : FilterResult)
        else if minMaxFires ((k, v) :: rest) then
          Except.error (JsErr.badRequest (minMaxMsg ((k, v) :: rest)))
        else match buildCols t ((k, v) :: rest) 0 with
          | Except.error e => Except.error e
          | Except.ok (frags, vals) =>
            Except.ok (⟨"WHERE " ++ String.intercalate " AND " frags, vals⟩ : FilterResult)) = _
    rw [hE, hmm]
    simp only [Bool.false_eq_true, if_false]
    rw [hbc]

/-- Witness for C5 (amended): a mapping holding `bogus` among recognized
fields errors, and with `bogus` first (no min/max pair) the error names
field and entity. -/
theorem sqlForFilter_unrecognized_field_witness :
    (∃ e, sqlForFilter (some [("minSalary", .str "5"), ("bogus", .str "x")]) .jobs =
      .error e) ∧
    sqlForFilter (some [("bogus", .str "x")]) .companies =
      .error (.badRequest
        ("Filtering '" ++ tableName .companies ++ "' by '" ++ "bogus" ++ "' is not possible.")) :=
  ⟨sqlForFilter_unrecognized_field.1 .jobs
      [("minSalary", .str "5"), ("bogus", .str "x")] "bogus" (by decide) (by decide),
   sqlForFilter_unrecognized_field.2 .companies "bogus" (.str "x") [] (by decide) (by decide)⟩

/-- Counterexample for C1: the query-string value `"false"` is a non-empty
string, hence truthy, so `sqlForFilter` emits `equity > 0` for it — not the
`equity >= 0` the claim requires for that input. -/
theorem sqlForFilter_hasEquity_false_counterexample :
    sqlForFilter (some [("hasEquity", .str "false")]) .jobs =
      .ok ⟨"WHERE equity > 0", []⟩ ∧
    ("WHERE equity > 0" : String) ≠ "WHERE equity >= 0" :=
  ⟨by decide, by decide⟩

/-- C1 (amended): in any successful jobs filter build, the fragment at the
position of a `hasEquity` entry is the literal `equity > 0` when the
supplied value is truthy — which includes every non-empty string, such as
the query-string value `"false"` — and the literal `equity >= 0` when it is
falsy; `hasEquity` never adds a positional parameter (the value list holds
one entry per non-`hasEquity` key). -/
theorem sqlForFilter_hasEquity_literal (data : List (String × JSVal)) (j : Nat)
    (v : JSVal) (r : FilterResult)
    (hget : data.get? j = some ("hasEquity", v))
    (hok : sqlForFilter (some data) .jobs = .ok r) :
    ∃ frags : List String,
      r.whereClause = "WHERE " ++ String.intercalate " AND " frags ∧
      frags.get? j = some (if jsTruthy v then "equity > 0" else "equity >= 0") ∧
      r.values.length = countParams data := by
  have hne : data ≠ [] := by
    rintro rfl
    cases j <;> exact Option.noConfusion hget
  obtain ⟨-, frags, vals, hbc, hr⟩ := sqlForFilter_ok_parts data .jobs r hne hok
  obtain ⟨hlen, hcnt, hspec⟩ := buildCols_ok_spec .jobs data 0 frags vals hbc
  subst hr
  exact ⟨frags, rfl, (hspec j "hasEquity" v hget).1 rfl, hcnt⟩

/-- Witness for C1 (amended): the `"false"` string takes the truthy branch. -/
theorem sqlForFilter_hasEquity_literal_witness :
    ∃ frags : List String,
      (FilterResult.mk "WHERE equity > 0" []).whereClause =
        "WHERE " ++ String.intercalate " AND " frags ∧
      frags.get? 0 = some (if jsTruthy (.str "false") then "equity > 0" else "equity >= 0") ∧
      (FilterResult.mk "WHERE equity > 0" []).values.length =
        countParams [("hasEquity", JSVal.str "false")] :=
  sqlForFilter_hasEquity_literal [("hasEquity", .str "false")] 0 (.str "false")
    ⟨"WHERE equity > 0", []⟩ (by decide) (by decide)

/-- C10: every successful, non-empty `sqlForFilter` clause is the ` AND `
join of one fragment per mapping key after `WHERE `; the fragment of each
non-`hasEquity` key carries exactly one placeholder, numbered one plus the
count of parameters contributed by the keys before it (so the placeholders
read `$1 ... $N` left to right with `N` the value-list length), its value
sits at the matching list position, and a `hasEquity` fragment carries no
placeholder and no value, leaving the numbering contiguous. -/
theorem sqlForFilter_placeholders (data : List (String × JSVal)) (t : Table)
    (r : FilterResult) (hok : sqlForFilter (some data) t = .ok r)
    (hne : r.whereClause ≠ "") :
    ∃ frags : List String,
      r.whereClause = "WHERE " ++ String.intercalate " AND " frags ∧
      frags.length = data.length ∧
      r.values.length = countParams data ∧
      (∀ (j : Nat) (k : String) (v : JSVal), data.get? j = some (k, v) →
        (k = "hasEquity" →
          frags.get? j = some (if jsTruthy v then "equity > 0" else "equity >= 0") ∧
          noDollar (if jsTruthy v then "equity > 0" else "equity >= 0") = true) ∧
        (k ≠ "hasEquity" →
          ∃ stem w,
            frags.get? j = some (stem ++ "$" ++ toString (countParams (data.take j) + 1)) ∧
            noDollar stem = true ∧
            r.values.get? (countParams (data.take j)) = some w)) := by
  have hdne : data ≠ [] := by
    rintro rfl
    have h0 : sqlForFilter (some ([] : List (String × JSVal))) t = .ok ⟨"", []⟩ := rfl
    rw [h0] at hok
    have hr0 := Except.ok.inj hok
    exact hne (by rw [← hr0])
  obtain ⟨-, frags, vals, hbc, hr⟩ := sqlForFilter_ok_parts data t r hdne hok
  obtain ⟨hlen, hcnt, hspec⟩ := buildCols_ok_spec t data 0 frags vals hbc
  subst hr
  refine ⟨frags, rfl, hlen, hcnt, ?_⟩
  intro j k v hget
  constructor
  · intro hke
    refine ⟨(hspec j k v hget).1 hke, ?_⟩
    cases h : jsTruthy v <;> simp [h] <;> decide
  · intro hkne
    obtain ⟨stem, w, hfg, hnd, hvg⟩ := (hspec j k v hget).2 hkne
    exact ⟨stem, w, by simpa using hfg, hnd, hvg⟩

/-- Witness for C10: a jobs mapping with `hasEquity` between two
parameterized fields still numbers the placeholders `$1`, `$2`. -/
theorem sqlForFilter_placeholders_witness :
    ∃ frags : List String,
      exampleJobsResult.whereClause = "WHERE " ++ String.intercalate " AND " frags ∧
      frags.length = exampleJobsFilter.length ∧
      exampleJobsResult.values.length = countParams exampleJobsFilter ∧
      (∀ (j : Nat) (k : String) (v : JSVal), exampleJobsFilter.get? j = some (k, v) →
        (k = "hasEquity" →
          frags.get? j = some (if jsTruthy v then "equity > 0" else "equity >= 0") ∧
          noDollar (if jsTruthy v then "equity > 0" else "equity >= 0") = true) ∧
        (k ≠ "hasEquity" →
          ∃ stem w,
            frags.get? j =
              some (stem ++ "$" ++ toString (countParams (exampleJobsFilter.take j) + 1)) ∧
            noDollar stem = true ∧
            exampleJobsResult.values.get? (countParams (exampleJobsFilter.take j)) = some w)) :=
  sqlForFilter_placeholders exampleJobsFilter .jobs exampleJobsResult
    (by decide) (by decide)

/-- C9: in the rows shaped by `Job.create`, `Job.get` and `Job.update`, a
non-null equity arriving from the store as a decimal string becomes the
corresponding number in the returned object, while a null equity stays
null. -/
theorem job_equity_normalization (row : PgJobRow) (detail : PgJobDetailRow)
    (s : String) (q : Rat) :
    (row.equity = .str s → s ≠ "" → parseNumber s = some q →
      (jobCreateReturn row).equity = .num q ∧ (jobUpdateReturn row).equity = .num q) ∧
    (detail.equity = .str s → s ≠ "" → parseNumber s = some q →
      (jobGetReturn detail).job.equity = .num q) ∧
    (row.equity = .null →
      (jobCreateReturn row).equity = .null ∧ (jobUpdateReturn row).equity = .null) ∧
    (detail.equity = .null → (jobGetReturn detail).job.equity = .null) := by
  refine ⟨?_, ?_, ?_, ?_⟩
  · intro h hs hp
    constructor <;>
      simp [jobCreateReturn, jobUpdateReturn, jsTernaryNum, h, jsTruthy, hs,
        jsPlus, jsToNum, hp]
  · intro h hs hp
    simp [jobGetReturn, jsTernaryNum, h, jsTruthy, hs, jsPlus, jsToNum, hp]
  · intro h
    constructor <;> simp [jobCreateReturn, jobUpdateReturn, jsTernaryNum, h, jsTruthy]
  · intro h
    simp [jobGetReturn, jsTernaryNum, h, jsTruthy]

/-- Witness for C9: the stored decimal string `"0.02"` reads back as the
number `0.02` (= 1/50) from all three shapes, and a null equity stays
null. -/
theorem job_equity_normalization_witness :
    (jobCreateReturn exampleJobRow).equity = .num (mkRat 1 50) ∧
    (jobUpdateReturn exampleJobRow).equity = .num (mkRat 1 50) ∧
    (jobGetReturn exampleJobDetailRow).job.equity = .num (mkRat 1 50) ∧
    (jobCreateReturn exampleJobRowNull).equity = .null :=
  ⟨((job_equity_normalization exampleJobRow exampleJobDetailRow "0.02" (mkRat 1 50)).1
      rfl (by decide) (by decide)).1,
   ((job_equity_normalization exampleJobRow exampleJobDetailRow "0.02" (mkRat 1 50)).1
      rfl (by decide) (by decide)).2,
   (job_equity_normalization exampleJobRow exampleJobDetailRow "0.02" (mkRat 1 50)).2.1
      rfl (by decide) (by decide),
   ((job_equity_normalization exampleJobRowNull exampleJobDetailRow "0.02" (mkRat 1 50)).2.2.1
      rfl).1⟩

/-- C2 (code evaluated at the failing input): `Job.findAll` for a named
company injects `handle` into the filter mapping, but the jobs `fields`
table has no `handle` entry, so `sqlForFilter` throws before the store is
ever consulted — for every store and every `Company.get`.  The claimed
company-with-empty-jobs and company-not-found outcomes are unreachable. -/
theorem jobFindAll_single_company_filter_throws {α β : Type}
    (dbAnswer : String → List JSVal → List α)
    (companyGet : String → Except JsErr β) :
    jobFindAll "c1" "LEFT " [("title", .str "x")] dbAnswer companyGet =
      .error (.badRequest "Filtering 'jobs' by 'handle' is not possible.") := by
  have hs : sqlForFilter
      (some (setKey [("title", JSVal.str "x")] "handle" (.str "c1"))) .jobs =
      .error (.badRequest "Filtering 'jobs' by 'handle' is not possible.") := by
    decide
  unfold jobFindAll
  dsimp only
  rw [if_pos (by decide : ("c1" : String) ≠ "")]
  rw [hs]

/-- Supporting fact for C2's first half: a global listing (empty handle)
under a filter that matches no rows fails with the distinct
`"No jobs were found due to filter settings"` signal. -/
theorem jobFindAll_global_filter_no_rows {α β : Type}
    (dbAnswer : String → List JSVal → List α)
    (companyGet : String → Except JsErr β)
    (hdb : ∀ q vs, dbAnswer q vs = []) :
    jobFindAll "" "" [("title", .str "zzz")] dbAnswer companyGet =
      .error (.notFound "No jobs were found due to filter settings") := by
  have hs : sqlForFilter (some [("title", JSVal.str "zzz")]) .jobs =
      .ok ⟨"WHERE title ILIKE $1", [.str "%zzz%"]⟩ := by
    decide
  unfold jobFindAll
  dsimp only
  rw [if_neg (by decide : ¬ ("" : String) ≠ "")]
  rw [hs]
  dsimp only
  rw [hdb]
  simp

end Jobly
